import Mathlib

/-!
Shallow embedding of `src/main.rs` of the regex-replace tool.

Text is modelled as `List Char`.  File contents, pattern source text,
replacement templates and filesystem paths are all character lists.

The Rust code works with a compiled `regex::Regex` together with a fixed
(already unescaped) replacement template; the only operations it uses are
`re.replace_all(text, replacement)` and `re.is_match(text)`.  We model this
pair abstractly as a `Regex` structure holding those two functions, and
concretely (for literal, regex-metacharacter-free patterns, which is exactly
what the concrete scenarios in the claims use) by `literalRe`, whose
`replace_all` performs leftmost non-overlapping literal substitution — the
behaviour of the `regex` crate on a literal pattern.
-/

set_option maxRecDepth 4000

abbrev Chars := List Char

deriving instance DecidableEq for Except

/-- Abstraction of a compiled `regex::Regex` paired with the fixed replacement
template: `replace_all` is `re.replace_all(·, replacement)` and `is_match` is
`re.is_match`. -/
structure Regex where
  is_match : Chars → Bool
  replace_all : Chars → Chars

/-- `containsSeq pat s` decides whether `pat` occurs as a contiguous
subsequence of `s`; models `re.is_match(s)` for a literal pattern `pat`. -/
def containsSeq (pat : Chars) : Chars → Bool
  | [] => List.isPrefixOf pat []
  | c :: rest => List.isPrefixOf pat (c :: rest) || containsSeq pat rest

/-- Leftmost, non-overlapping replacement of every occurrence of the literal
pattern `pat` by `repl`; models `re.replace_all(s, repl)` of the `regex`
crate for a nonempty literal pattern `pat`.  The `fuel` argument only bounds
the recursion; `fuel = s.length` always suffices for nonempty `pat` because
every step consumes at least one character of `s`. -/
def replaceAllLit (pat repl : Chars) : Nat → Chars → Chars
  | _, [] => []
  | 0, s => s
  | fuel + 1, c :: rest =>
    if List.isPrefixOf pat (c :: rest) then
      repl ++ replaceAllLit pat repl fuel (List.drop pat.length (c :: rest))
    else
      c :: replaceAllLit pat repl fuel rest

/-- The `Regex` model of a nonempty literal pattern `pat` with replacement
template `repl`. -/
def literalRe (pat repl : Chars) : Regex where
  is_match := containsSeq pat
  replace_all := fun s => replaceAllLit pat repl s.length s

/-- Left brace character (written numerically to keep it out of string and
character literals). -/
def lbrace : Char := Char.ofNat 123

/-- Right brace character. -/
def rbrace : Char := Char.ofNat 125

/-- The `NEW_LINES` constant (src/main.rs lines 15-23): the recognized
literal newline-escape forms, as they appear in the pattern source text:
`\n`, `\r`, `\r\n`, `\u{000B}`, `\u{000C}`, `\u{2028}`, `\u{2029}`. -/
def NEW_LINES : List Chars :=
  [ ['\\', 'n'],
    ['\\', 'r'],
    ['\\', 'r', '\\', 'n'],
    ['\\', 'u', lbrace, '0', '0', '0', 'B', rbrace],
    ['\\', 'u', lbrace, '0', '0', '0', 'C', rbrace],
    ['\\', 'u', lbrace, '2', '0', '2', '8', rbrace],
    ['\\', 'u', lbrace, '2', '0', '2', '9', rbrace] ]

/-- `countOccs needle fuel s` counts leftmost non-overlapping occurrences of
`needle` in `s`; models Rust `s.matches(needle).count()` for a nonempty
`needle` (`fuel = s.length` suffices). -/
def countOccs (needle : Chars) : Nat → Chars → Nat
  | _, [] => 0
  | 0, _ => 0
  | fuel + 1, c :: rest =>
    if List.isPrefixOf needle (c :: rest) then
      1 + countOccs needle fuel (List.drop needle.length (c :: rest))
    else
      countOccs needle fuel rest

/-- The window-size computation of `main` (src/main.rs lines 357-367):
`count` sums, over the seven `NEW_LINES` escape forms, the number of
occurrences of that form in the pattern source text, and
`max_line_number = count + 1`. -/
def main_max_line_number (pattern : Chars) : Nat :=
  (NEW_LINES.map (fun nl => countOccs nl pattern.length pattern)).sum + 1

/-- Strip a single trailing carriage return, as `BufRead::lines` does for a
line terminated by `\r\n`. -/
def stripCr (l : Chars) : Chars :=
  if l.getLast? = some '\r' then l.dropLast else l

/-- Split on every `'\n'`, keeping empty segments; models Rust
`str::split('\n')` (which yields one empty segment on the empty string). -/
def splitNl : Chars → List Chars
  | [] => [[]]
  | c :: rest =>
    if c = '\n' then [] :: splitNl rest
    else
      match splitNl rest with
      | [] => [[c]]
      | l :: ls => (c :: l) :: ls

/-- The sequence of lines produced by `BufRead::lines` on `content`
(src/main.rs lines 56-70 read from this iterator): segments between `'\n'`
characters with the terminating `'\n'` (and a preceding `'\r'`, if any)
stripped; a final segment that is empty (i.e. the content ended with `'\n'`)
yields no line, and a final segment not terminated by `'\n'` is returned
as-is (a bare trailing `'\r'` at end-of-file is kept, as in Rust). -/
def linesOf (content : Chars) : List Chars :=
  let segs := splitNl content
  match segs.getLast? with
  | none => []
  | some lastSeg =>
    let body := (segs.dropLast).map stripCr
    if lastSeg.isEmpty then body else body ++ [lastSeg]

/-- Join lines with a single `'\n'`; models `buffer_lines.join( "\n")`
(src/main.rs line 110). -/
def joinNl : List Chars → Chars
  | [] => []
  | [l] => l
  | l :: l' :: ls => l ++ '\n' :: joinNl (l' :: ls)

/-- The `loop` of `replace_in_file_line_by_line` (src/main.rs lines 106-180),
acting on the buffered lines and the cursor of not-yet-read lines; the value
is the sequence of characters written to the temporary artifact from this
iteration on, or an error for the structural failure of lines 119-123.
`fuel` bounds the number of iterations: every iteration that recurses
consumes at least one line of `remaining`, so `remaining.length + 1`
suffices and the `0` case is unreachable from `replace_in_file_line_by_line`. -/
def lineLoop (re : Regex) (max_line_number : Nat) :
    Nat → List Chars → List Chars → Except Unit Chars
  | _, [], _ => Except.ok []
  | 0, _ :: _, _ => Except.error ()
  | fuel + 1, b :: bs, remaining =>
    let buffer_text := joinNl (b :: bs)
    let buffer_text_replaced := re.replace_all buffer_text
    if 1 < max_line_number ∧ re.is_match buffer_text_replaced = true then
      Except.error ()
    else
      let buffer_lines_replaced := splitNl buffer_text_replaced
      let split_at :=
        if max_line_number < buffer_lines_replaced.length then
          buffer_lines_replaced.length - max_line_number
        else 0
      let processed_part :=
        if max_line_number = 1 then buffer_lines_replaced
        else buffer_lines_replaced.take split_at
      let unprocessed_part :=
        if max_line_number = 1 then ([] : List Chars)
        else buffer_lines_replaced.drop split_at
      let written := (processed_part.map (fun l => l ++ ['\n'])).flatten
      let next := remaining.take max_line_number
      if next.isEmpty then
        Except.ok (written ++ unprocessed_part.flatten)
      else
        (lineLoop re max_line_number fuel (unprocessed_part ++ next)
            (remaining.drop max_line_number)).map
          (fun rest => written ++ rest)

/-- `replace_in_file_line_by_line` (src/main.rs lines 75-189) as a content
transformation: the input file's lines are read through `BufRead::lines`,
the initial load is 1 line when `max_line_number = 1` and
`max_line_number * 2` lines otherwise (lines 100-104), and the loop then
produces the temporary artifact's content, or the structural-failure error. -/
def replace_in_file_line_by_line (re : Regex) (max_line_number : Nat)
    (content : Chars) : Except Unit Chars :=
  let all_lines := linesOf content
  let init_count := if max_line_number = 1 then 1 else max_line_number * 2
  let buffer_lines := all_lines.take init_count
  let remaining := all_lines.drop init_count
  lineLoop re max_line_number (remaining.length + 1) buffer_lines remaining

/-- `replace_in_file_whole_file` (src/main.rs lines 194-223) as a content
transformation: read the whole file, apply one global `replace_all`, and
write the result verbatim to the temporary artifact. -/
def replace_in_file_whole_file (re : Regex) (content : Chars) : Chars :=
  re.replace_all content

/-- `replace_in_file` (src/main.rs lines 228-245): try the line-by-line
strategy first and fall back to the whole-file strategy on any error. -/
def replace_in_file (re : Regex) (max_line_number : Nat)
    (content : Chars) : Chars :=
  match replace_in_file_line_by_line re max_line_number content with
  | Except.ok out => out
  | Except.error _ => replace_in_file_whole_file re content

/-! ## The per-run pipeline of `main` (src/main.rs lines 331-426)

The replacement phase maps `replace_in_file` over all collected files in
parallel, keeping only the successes (`filter_map`, lines 381-392) and
printing an error-stream message for each failure; the commit phase (lines
394-414) then runs sequentially and calls `process::exit(1)` on the first
metadata read, permission set, overwrite copy, or temp-file removal that
fails.  The filesystem outcomes of the four commit steps for one file are
modelled by a `CommitOutcome` record of four booleans, and the outcome of
the replacement phase for one file by an `Option` of the artifact path. -/

/-- Outcome of the four commit-phase steps for one file: `fs::metadata`,
`fs::set_permissions`, `fs::copy` and `fs::remove_file`. -/
structure CommitOutcome where
  metadataOk : Bool
  setPermsOk : Bool
  copyOk : Bool
  removeOk : Bool
deriving DecidableEq

/-- One collected input file together with the outcome of its replacement
phase (`replaced = some temp` when `replace_in_file` returned an artifact
path, `none` when both strategies failed) and the outcomes of its commit
steps. -/
structure FileJob where
  path : Chars
  replaced : Option Chars
  commit : CommitOutcome
deriving DecidableEq

/-- All four commit steps succeed. -/
def commitOk (c : CommitOutcome) : Bool :=
  c.metadataOk && c.setPermsOk && c.copyOk && c.removeOk

/-- The sequential commit loop of `main` (src/main.rs lines 394-414) over the
successfully replaced files: returns the list of files actually committed
(overwritten by `fs::copy`) and the process exit code.  The first failing
step exits with code 1; a file counts as committed exactly when its
`fs::copy` step ran and succeeded (so a failure of the subsequent
`fs::remove_file` still leaves that file committed). -/
def commitAll : List FileJob → List Chars × Nat
  | [] => ([], 0)
  | j :: rest =>
    if j.commit.metadataOk = false then ([], 1)
    else if j.commit.setPermsOk = false then ([], 1)
    else if j.commit.copyOk = false then ([], 1)
    else if j.commit.removeOk = false then ([j.path], 1)
    else
      let r := commitAll rest
      (j.path :: r.1, r.2)

/-- Result of a run of `main`: the files whose replacement failure was
reported to the error stream, the files committed, and the process exit
code. -/
structure MainResult where
  reported : List Chars
  committed : List Chars
  exitCode : Nat
deriving DecidableEq

/-- The replacement-plus-commit pipeline of `main` (src/main.rs lines
381-414): per-file replacement failures are reported and dropped by the
`filter_map`, the successes are committed sequentially. -/
def runMain (jobs : List FileJob) : MainResult :=
  let temp_files := jobs.filter (fun j => j.replaced.isSome)
  let failed := jobs.filter (fun j => j.replaced.isNone)
  let r := commitAll temp_files
  { reported := failed.map FileJob.path
    committed := r.1
    exitCode := r.2 }

/-! ## Filesystem-event traces

To settle the frame claim (which files the program opens, writes, copies and
removes) we mirror the I/O calls of the two replacement strategies and of
the commit phase as explicit event lists over abstract paths. -/

/-- One filesystem action of `src/main.rs`, tagged with the path (or, for
`fs::copy`, the source and destination paths) it acts on. -/
inductive FsEvent
  | createTempFile (p : Chars)
  | openForAppend (p : Chars)
  | openForRead (p : Chars)
  | readToString (p : Chars)
  | writeChunk (p : Chars)
  | flushFile (p : Chars)
  | persistTemp (p : Chars)
  | readMetadata (p : Chars)
  | setPermissions (p : Chars)
  | copyOver (src dst : Chars)
  | removeFile (p : Chars)
deriving DecidableEq

/-- `touchesForWrite e q` holds when event `e` opens `q` for writing or
mutates `q` (its content, its permissions, or its existence); the read-only
events `openForRead`, `readToString`, `readMetadata` and the source side of
`copyOver` never touch a path for writing. -/
def touchesForWrite : FsEvent → Chars → Bool
  | FsEvent.createTempFile p, q => p == q
  | FsEvent.openForAppend p, q => p == q
  | FsEvent.openForRead _, _ => false
  | FsEvent.readToString _, _ => false
  | FsEvent.writeChunk p, q => p == q
  | FsEvent.flushFile p, q => p == q
  | FsEvent.persistTemp p, q => p == q
  | FsEvent.readMetadata _, _ => false
  | FsEvent.setPermissions p, q => p == q
  | FsEvent.copyOver _ dst, q => dst == q
  | FsEvent.removeFile p, q => p == q

/-- The write events issued by the `loop` of `replace_in_file_line_by_line`:
one `writeChunk` on the temporary file per `writeln!` of a processed line
(src/main.rs lines 157-159) and per `write!` of a held suffix line (lines
172-174); the loop performs no other filesystem call, and returns early
(no further events) on the structural failure of lines 119-123. -/
def lineLoopTrace (re : Regex) (max_line_number : Nat) (temp : Chars) :
    Nat → List Chars → List Chars → List FsEvent
  | _, [], _ => []
  | 0, _ :: _, _ => []
  | fuel + 1, b :: bs, remaining =>
    let buffer_text := joinNl (b :: bs)
    let buffer_text_replaced := re.replace_all buffer_text
    if 1 < max_line_number ∧ re.is_match buffer_text_replaced = true then []
    else
      let buffer_lines_replaced := splitNl buffer_text_replaced
      let split_at :=
        if max_line_number < buffer_lines_replaced.length then
          buffer_lines_replaced.length - max_line_number
        else 0
      let processed_part :=
        if max_line_number = 1 then buffer_lines_replaced
        else buffer_lines_replaced.take split_at
      let unprocessed_part :=
        if max_line_number = 1 then ([] : List Chars)
        else buffer_lines_replaced.drop split_at
      let writes := List.replicate processed_part.length (FsEvent.writeChunk temp)
      let next := remaining.take max_line_number
      if next.isEmpty then
        writes ++ List.replicate unprocessed_part.length (FsEvent.writeChunk temp)
      else
        writes ++ lineLoopTrace re max_line_number temp fuel
          (unprocessed_part ++ next) (remaining.drop max_line_number)

/-- The events after the loop of `replace_in_file_line_by_line`: on success
the buffered writer is flushed (src/main.rs line 181) and the temp file
persisted (line 186); on the structural-failure error the function returns
early and neither happens. -/
def tailEvents (temp : Chars) : Except Unit Chars → List FsEvent
  | Except.ok _ => [FsEvent.flushFile temp, FsEvent.persistTemp temp]
  | Except.error _ => []

/-- The filesystem events of `replace_in_file_line_by_line` (src/main.rs
lines 75-189) on a file at `target` with fresh temporary path `temp`:
temp-file creation (line 84), opening the temp file for append (lines
86-88), opening the target read-only (line 91), the loop's writes, and — on
success only — the final flush and persist. -/
def replace_in_file_line_by_line_events (target temp : Chars) (re : Regex)
    (max_line_number : Nat) (content : Chars) : List FsEvent :=
  let all_lines := linesOf content
  let init_count := if max_line_number = 1 then 1 else max_line_number * 2
  let buffer_lines := all_lines.take init_count
  let remaining := all_lines.drop init_count
  [FsEvent.createTempFile temp, FsEvent.openForAppend temp,
    FsEvent.openForRead target]
  ++ lineLoopTrace re max_line_number temp (remaining.length + 1)
      buffer_lines remaining
  ++ tailEvents temp
      (lineLoop re max_line_number (remaining.length + 1)
        buffer_lines remaining)

/-- The filesystem events of `replace_in_file_whole_file` (src/main.rs lines
194-223): temp-file creation, opening the temp file for append, reading the
target to a string (line 212), one write of the replaced content (line 217),
flush and persist. -/
def replace_in_file_whole_file_events (target temp : Chars) : List FsEvent :=
  [FsEvent.createTempFile temp, FsEvent.openForAppend temp,
    FsEvent.readToString target, FsEvent.writeChunk temp,
    FsEvent.flushFile temp, FsEvent.persistTemp temp]

/-- The filesystem events of the commit phase of `main` for one file
(src/main.rs lines 394-414, success path): read the original's metadata,
set the artifact's permissions, copy the artifact over the original, remove
the artifact. -/
def commitEvents (file temp : Chars) : List FsEvent :=
  [FsEvent.readMetadata file, FsEvent.setPermissions temp,
    FsEvent.copyOver temp file, FsEvent.removeFile temp]

/-! ## Concrete scenario constants -/

/-- Pattern source text of the multi-line scenario: the four characters
`a`, backslash, `n`, `b`. -/
def c2_pattern_source : Chars := "a\\nb".data

/-- The compiled form of that pattern (it matches the literal text
`a`, newline, `b`), with replacement template `X`. -/
def c2_re : Regex := literalRe ( "a\nb".data) ( "X".data)

/-- The scenario input file content: physical lines `a`, `b`, `c` with a
trailing newline. -/
def c2_file : Chars := "a\nb\nc\n".data

/-- The output the spec expects for the scenario (and the whole-file
replacer's output). -/
def c2_expected : Chars := "X\nc\n".data

/-- The output the windowed replacer actually produces on the scenario. -/
def c2_actual : Chars := "Xc".data

/-- A single-line literal pattern (`x` → `y`) that matches nothing in the
end-of-file test content. -/
def c3_re : Regex := literalRe ( "x".data) ( "y".data)

/-- End-of-file test content: one line with no trailing separator. -/
def c3_file : Chars := "foo".data

/-- Space-doubling engine: pattern a single space, replacement two spaces. -/
def space_re : Regex := literalRe ( " ".data) ( "  ".data)

/-- A file containing one space-bearing line, used to trigger the re-match
structural failure when the window size exceeds 1. -/
def c5_file : Chars := "x y\n".data

/-- Single-space input file of the no-double-substitution scenario. -/
def c7_file : Chars := " ".data

/-- CRLF-separated input file. -/
def c10_file : Chars := "a\r\nb\r\n".data

/-- An original-file path. -/
def c9_target : Chars := "input.txt".data

/-- A fresh temporary-artifact path. -/
def c9_temp : Chars := "artifact.tmp".data

/-- A commit outcome with all four steps succeeding. -/
def commitAllOk : CommitOutcome :=
  { metadataOk := true, setPermsOk := true, copyOk := true, removeOk := true }

/-- A commit outcome whose overwrite copy fails. -/
def commitCopyFails : CommitOutcome :=
  { metadataOk := true, setPermsOk := true, copyOk := false, removeOk := true }

/-- A run with one failed replacement amid two successes, all commits fine. -/
def c8_jobs : List FileJob :=
  [ { path := "f1".data, replaced := some ( "t1".data), commit := commitAllOk },
    { path := "f2".data, replaced := none, commit := commitAllOk },
    { path := "f3".data, replaced := some ( "t3".data), commit := commitAllOk } ]

/-- A run whose second successful file fails its overwrite copy. -/
def c8_jobs_bad : List FileJob :=
  [ { path := "f1".data, replaced := some ( "t1".data), commit := commitAllOk },
    { path := "f3".data, replaced := some ( "t3".data), commit := commitCopyFails } ]

/-- Plain single-line pattern source text with no newline escapes. -/
def c4_plain_pattern : Chars := "abc".data

/-- The windowed replacer's output on `c3_file` (a trailing `'\n'` appears
even though the input had none). -/
def c3_out : Chars := "foo\n".data

/-- The windowed replacer's output on the single-space file with the
space-doubling engine. -/
def c7_out : Chars := "  \n".data

/-- The lines of the CRLF-separated `c10_file`, terminators stripped. -/
def c10_expected_lines : List Chars := [ "a".data, "b".data]

/-- The windowed replacer's output on the CRLF file `c10_file` with the
non-matching engine `c3_re`: separators normalized to bare `'\n'`. -/
def c10_out : Chars := "a\nb\n".data

/-! ## Helper lemmas -/

theorem replaceAllLit_of_no_match (pat repl : Chars) :
    ∀ (fuel : Nat) (s : Chars), containsSeq pat s = false →
      replaceAllLit pat repl fuel s = s := by
  intro fuel
  induction fuel with
  | zero => intro s _; cases s <;> rfl
  | succ f ih =>
    intro s h
    cases s with
    | nil => rfl
    | cons c rest =>
      have h' : List.isPrefixOf pat (c :: rest) = false ∧
          containsSeq pat rest = false := by
        simpa [containsSeq] using h
      simp [replaceAllLit, h'.1, ih rest h'.2]

theorem splitNl_ne_nil (t : Chars) : splitNl t ≠ [] := by
  cases t with
  | nil => simp [splitNl]
  | cons c rest =>
    by_cases h : c = '\n'
    · simp [splitNl, h]
    · simp only [splitNl, if_neg h]
      cases splitNl rest <;> simp

theorem flatten_splitNl_append_nl (t : Chars) :
    ((splitNl t).map (fun l => l ++ ['\n'])).flatten = t ++ ['\n'] := by
  induction t with
  | nil => rfl
  | cons c rest ih =>
    by_cases h : c = '\n'
    · subst h; simp [splitNl, ih]
    · simp only [splitNl, if_neg h]
      cases hs : splitNl rest with
      | nil => exact absurd hs (splitNl_ne_nil rest)
      | cons l ls =>
        rw [hs] at ih
        simp only [List.map_cons, List.flatten_cons, List.cons_append,
          List.append_assoc, List.singleton_append] at ih ⊢
        rw [ih]

theorem lineLoop_one_eq (re : Regex) :
    ∀ (remaining : List Chars) (fuel : Nat) (buffer : List Chars),
      remaining.length < fuel → buffer ≠ [] →
      lineLoop re 1 fuel buffer remaining =
        Except.ok ((re.replace_all (joinNl buffer) ++ ['\n']) ++
          ((remaining.map (fun l => re.replace_all l ++ ['\n'])).flatten)) := by
  intro remaining
  induction remaining with
  | nil =>
    intro fuel buffer hf hb
    cases fuel with
    | zero => omega
    | succ f =>
      cases buffer with
      | nil => exact absurd rfl hb
      | cons b bs =>
        simp [lineLoop, flatten_splitNl_append_nl]
  | cons r rs ih =>
    intro fuel buffer hf hb
    cases fuel with
    | zero => simp at hf
    | succ f =>
      cases buffer with
      | nil => exact absurd rfl hb
      | cons b bs =>
        have hrec := ih f [r] (by simpa using hf) (by simp)
        simp [lineLoop, hrec, flatten_splitNl_append_nl, joinNl]
        rfl

theorem line_by_line_one (re : Regex) (content : Chars) :
    replace_in_file_line_by_line re 1 content =
      Except.ok
        (((linesOf content).map (fun l => re.replace_all l ++ ['\n'])).flatten) := by
  unfold replace_in_file_line_by_line
  rw [show (if (1 : Nat) = 1 then 1 else 1 * 2) = 1 from rfl]
  cases h : linesOf content with
  | nil => simp [lineLoop]
  | cons l ls =>
    simp only [List.take_succ_cons, List.take_zero, List.drop_succ_cons,
      List.drop_zero]
    rw [lineLoop_one_eq re ls (ls.length + 1) [l] (Nat.lt_succ_self _) (by simp)]
    simp [joinNl]

/-! ## Claim theorems -/

/-- C1 (refuted; the code is at fault): the claim says that on every input
not violating the window-size assumption the windowed line replacer succeeds
with output byte-for-byte equal to the whole-file replacer's.  On the file
`a\nb\nc\n` with the two-line literal pattern `a`,newline,`b` (so no match
spans more than `W = 2` lines and the replacement `X` creates no new match)
the windowed replacer succeeds but returns `Xc` — the held final suffix is
written line-by-line with `write!` and no separators — while the whole-file
replacer returns `X\nc\n`. -/
theorem c1_windowed_differs_from_whole_file :
    replace_in_file_line_by_line c2_re 2 c2_file = Except.ok c2_actual ∧
    replace_in_file_whole_file c2_re c2_file = c2_expected ∧
    c2_actual ≠ c2_expected := by
  refine ⟨by decide, by decide, by decide⟩

/-- C2 (refuted; the code is at fault): the spec's scenario says the
pipeline maps `a\nb\nc\n` under pattern source `a\\nb` (window size 2) and
replacement `X` to `X\nc\n`; the code's windowed pass succeeds with `Xc`
(losing the separator between the held lines `X` and `c` and the trailing
newline), so the pipeline returns `Xc`, not `X\nc\n`. -/
theorem c2_pipeline_output :
    main_max_line_number c2_pattern_source = 2 ∧
    replace_in_file c2_re 2 c2_file = c2_actual ∧
    c2_actual ≠ c2_expected := by
  refine ⟨by decide, by decide, by decide⟩

/-- C3 (refuted; the code is at fault): the claim says no trailing separator
is invented and a single trailing separator is retained.  With window size 1
the file `foo` (no trailing separator, pattern matching nothing) comes out
as `foo\n` — `writeln!` appends a separator to every processed line,
inventing one at end-of-file; and with window size 2 the file `a\nb\nc\n`
(one trailing separator) comes out as `Xc`, retaining none. -/
theorem c3_end_of_file_exactness_fails :
    (replace_in_file_line_by_line c3_re 1 c3_file = Except.ok c3_out ∧
      c3_file.getLast? ≠ some '\n' ∧ c3_out.getLast? = some '\n') ∧
    (c2_file.getLast? = some '\n' ∧
      (replace_in_file c2_re 2 c2_file).getLast? ≠ some '\n') := by
  refine ⟨⟨by decide, by decide, by decide⟩, by decide, by decide⟩

/-- C4: for every pattern source text, the window size computed by `main`
equals the total number of occurrences of the seven recognized literal
newline-escape forms plus one, is always at least 1 (the computation never
fails), and in particular `a\\nb` (one newline escape) gives 2 and `abc`
(no escapes) gives 1. -/
theorem c4_window_size (pattern : Chars) :
    main_max_line_number pattern =
      (NEW_LINES.map (fun nl => countOccs nl pattern.length pattern)).sum + 1 ∧
    1 ≤ main_max_line_number pattern ∧
    main_max_line_number c2_pattern_source = 2 ∧
    main_max_line_number c4_plain_pattern = 1 := by
  refine ⟨rfl, ?_, by decide, by decide⟩
  unfold main_max_line_number
  omega

/-- C6: the whole-file replacer's artifact content is exactly one global
substitute-all applied to the full file content; in particular (verbatim
write, no separator added or removed) a file in which a literal pattern has
no match is reproduced unchanged. -/
theorem c6_whole_file_is_global_substitution :
    (∀ (re : Regex) (content : Chars),
        replace_in_file_whole_file re content = re.replace_all content) ∧
    (∀ (pat repl content : Chars), containsSeq pat content = false →
        replace_in_file_whole_file (literalRe pat repl) content = content) := by
  refine ⟨fun re content => rfl, fun pat repl content h => ?_⟩
  exact replaceAllLit_of_no_match pat repl content.length content h

/-- Witness for C6 at a concrete input: the pattern `x` has no match in
`foo`, and the whole-file replacer reproduces `foo` unchanged. -/
theorem c6_whole_file_witness :
    replace_in_file_whole_file (literalRe ( "x".data) ( "y".data)) c3_file
      = c3_file :=
  c6_whole_file_is_global_substitution.2 ( "x".data) ( "y".data) c3_file (by decide)

theorem splitNl_cons_of_ne (a : Char) (rest : Chars) (h : ¬ a = '\n')
    (l : Chars) (ls : List Chars) (hs : splitNl rest = l :: ls) :
    splitNl (a :: rest) = (a :: l) :: ls := by
  simp only [splitNl, if_neg h, hs]

theorem mem_splitNl_subset {c : Char} :
    ∀ (t : Chars) (l : Chars), l ∈ splitNl t → c ∈ l → c ∈ t := by
  intro t
  induction t with
  | nil =>
    intro l hl hc
    simp only [splitNl, List.mem_singleton] at hl
    subst hl
    simp at hc
  | cons a rest ih =>
    intro l hl hc
    by_cases h : a = '\n'
    · subst h
      simp only [splitNl, if_pos rfl] at hl
      rcases List.mem_cons.mp hl with rfl | hl'
      · simp at hc
      · exact List.mem_cons_of_mem _ (ih l hl' hc)
    · cases hs : splitNl rest with
      | nil => exact absurd hs (splitNl_ne_nil rest)
      | cons l₀ ls =>
        rw [splitNl_cons_of_ne a rest h l₀ ls hs] at hl
        rcases List.mem_cons.mp hl with rfl | hl'
        · rcases List.mem_cons.mp hc with rfl | hc'
          · exact List.mem_cons_self _ _
          · exact List.mem_cons_of_mem _
              (ih l₀ (by rw [hs]; exact List.mem_cons_self _ _) hc')
        · exact List.mem_cons_of_mem _
            (ih l (by rw [hs]; exact List.mem_cons_of_mem _ hl') hc)

theorem mem_joinNl {c : Char} :
    ∀ (ls : List Chars), c ∈ joinNl ls → c = '\n' ∨ ∃ l, l ∈ ls ∧ c ∈ l := by
  intro ls
  induction ls with
  | nil => intro h; simp [joinNl] at h
  | cons l rest ih =>
    intro h
    cases rest with
    | nil =>
      right; exact ⟨l, List.mem_cons_self _ _, by simpa [joinNl] using h⟩
    | cons l' rest' =>
      simp only [joinNl] at h
      rcases List.mem_append.mp h with h1 | h2
      · right; exact ⟨l, List.mem_cons_self _ _, h1⟩
      · rcases List.mem_cons.mp h2 with rfl | h3
        · left; rfl
        · rcases ih h3 with h4 | ⟨l₀, hl₀, hc⟩
          · left; exact h4
          · right; exact ⟨l₀, List.mem_cons_of_mem _ hl₀, hc⟩

theorem mem_replaceAllLit {c : Char} (pat repl : Chars) :
    ∀ (fuel : Nat) (s : Chars), c ∈ replaceAllLit pat repl fuel s →
      c ∈ s ∨ c ∈ repl := by
  intro fuel
  induction fuel with
  | zero =>
    intro s h
    cases s with
    | nil => simp [replaceAllLit] at h
    | cons a rest => exact Or.inl h
  | succ f ih =>
    intro s h
    cases s with
    | nil => simp [replaceAllLit] at h
    | cons a rest =>
      rw [replaceAllLit] at h
      by_cases hp : List.isPrefixOf pat (a :: rest) = true
      · rw [if_pos hp] at h
        rcases List.mem_append.mp h with h1 | h2
        · exact Or.inr h1
        · rcases ih _ h2 with h3 | h4
          · exact Or.inl (List.drop_subset _ _ h3)
          · exact Or.inr h4
      · rw [if_neg hp] at h
        rcases List.mem_cons.mp h with rfl | h2
        · exact Or.inl (List.mem_cons_self _ _)
        · rcases ih _ h2 with h3 | h4
          · exact Or.inl (List.mem_cons_of_mem _ h3)
          · exact Or.inr h4

theorem no_cr_flatten_map (proc : List Chars) (h : ∀ l ∈ proc, '\r' ∉ l) :
    '\r' ∉ (proc.map (fun l => l ++ ['\n'])).flatten := by
  intro hc
  rcases List.mem_flatten.mp hc with ⟨piece, hpiece, hcp⟩
  rcases List.mem_map.mp hpiece with ⟨l, hl, rfl⟩
  rcases List.mem_append.mp hcp with h1 | h2
  · exact h l hl h1
  · simp at h2

theorem no_cr_flatten (unp : List Chars) (h : ∀ l ∈ unp, '\r' ∉ l) :
    '\r' ∉ unp.flatten := by
  intro hc
  rcases List.mem_flatten.mp hc with ⟨l, hl, hcl⟩
  exact h l hl hcl

theorem lineLoop_no_cr (pat repl : Chars) (w : Nat) (hrepl : '\r' ∉ repl) :
    ∀ (fuel : Nat) (buffer remaining : List Chars) (out : Chars),
      (∀ l ∈ buffer, '\r' ∉ l) → (∀ l ∈ remaining, '\r' ∉ l) →
      lineLoop (literalRe pat repl) w fuel buffer remaining = Except.ok out →
      '\r' ∉ out := by
  intro fuel
  induction fuel with
  | zero =>
    intro buffer remaining out hbuf hrem heq
    cases buffer with
    | nil =>
      simp only [lineLoop, Except.ok.injEq] at heq
      subst heq; simp
    | cons b bs => simp [lineLoop] at heq
  | succ f ih =>
    intro buffer remaining out hbuf hrem heq
    cases buffer with
    | nil =>
      simp only [lineLoop, Except.ok.injEq] at heq
      subst heq; simp
    | cons b bs =>
      have hR : '\r' ∉ (literalRe pat repl).replace_all (joinNl (b :: bs)) := by
        intro hc
        rcases mem_replaceAllLit pat repl _ _ hc with h1 | h2
        · rcases mem_joinNl _ h1 with h3 | ⟨l, hl, hcl⟩
          · simp at h3
          · exact hbuf l hl hcl
        · exact hrepl h2
      have hsegs : ∀ l ∈ splitNl ((literalRe pat repl).replace_all
          (joinNl (b :: bs))), '\r' ∉ l :=
        fun l hl hc => hR (mem_splitNl_subset _ l hl hc)
      simp only [lineLoop] at heq
      split at heq
      · exact absurd heq (by simp)
      · have hproc : ∀ l ∈ (if w = 1 then
            splitNl ((literalRe pat repl).replace_all (joinNl (b :: bs)))
          else (splitNl ((literalRe pat repl).replace_all
            (joinNl (b :: bs)))).take
              (if w < (splitNl ((literalRe pat repl).replace_all
                  (joinNl (b :: bs)))).length then
                (splitNl ((literalRe pat repl).replace_all
                  (joinNl (b :: bs)))).length - w
              else 0)), '\r' ∉ l := by
          intro l hl
          by_cases h1 : w = 1
          · rw [if_pos h1] at hl; exact hsegs l hl
          · rw [if_neg h1] at hl; exact hsegs l (List.take_subset _ _ hl)
        have hunp : ∀ l ∈ (if w = 1 then ([] : List Chars)
          else (splitNl ((literalRe pat repl).replace_all
            (joinNl (b :: bs)))).drop
              (if w < (splitNl ((literalRe pat repl).replace_all
                  (joinNl (b :: bs)))).length then
                (splitNl ((literalRe pat repl).replace_all
                  (joinNl (b :: bs)))).length - w
              else 0)), '\r' ∉ l := by
          intro l hl
          by_cases h1 : w = 1
          · rw [if_pos h1] at hl; simp at hl
          · rw [if_neg h1] at hl; exact hsegs l (List.drop_subset _ _ hl)
        split at heq
        · rw [Except.ok.injEq] at heq
          subst heq
          intro hc
          rcases List.mem_append.mp hc with h1 | h2
          · exact no_cr_flatten_map _ hproc h1
          · exact no_cr_flatten _ hunp h2
        · cases hrec : lineLoop (literalRe pat repl) w f
            ((if w = 1 then ([] : List Chars)
              else (splitNl ((literalRe pat repl).replace_all
                (joinNl (b :: bs)))).drop
                  (if w < (splitNl ((literalRe pat repl).replace_all
                      (joinNl (b :: bs)))).length then
                    (splitNl ((literalRe pat repl).replace_all
                      (joinNl (b :: bs)))).length - w
                  else 0)) ++ remaining.take w)
            (remaining.drop w) with
          | error e => rw [hrec] at heq; simp [Except.map] at heq
          | ok rest =>
            rw [hrec] at heq
            simp only [Except.map, Except.ok.injEq] at heq
            subst heq
            have hrest : '\r' ∉ rest := by
              refine ih _ _ rest ?_ (fun l hl => hrem l (List.drop_subset _ _ hl)) hrec
              intro l hl
              rcases List.mem_append.mp hl with h1 | h2
              · exact hunp l h1
              · exact hrem l (List.take_subset _ _ h2)
            intro hc
            rcases List.mem_append.mp hc with h1 | h2
            · exact no_cr_flatten_map _ hproc h1
            · exact hrest h2

/-- C10: every line separator in the windowed replacer's output is the
single character `'\n'` regardless of the input's separators: lines are read
with their terminators stripped, rejoined with `'\n'` and written back with
`'\n'` only — formally, whenever the stripped input lines and the
replacement template are free of `'\r'`, so is any successful output; and
concretely the CRLF-separated file `a\r\nb\r\n` is read as the lines
`a`, `b` and rewritten as `a\nb\n`. -/
theorem c10_output_uses_lf_only :
    (∀ (pat repl : Chars) (w : Nat) (content out : Chars),
        '\r' ∉ repl → (∀ l ∈ linesOf content, '\r' ∉ l) →
        replace_in_file_line_by_line (literalRe pat repl) w content
          = Except.ok out →
        '\r' ∉ out) ∧
    linesOf c10_file = c10_expected_lines ∧
    replace_in_file_line_by_line c3_re 1 c10_file = Except.ok c10_out := by
  refine ⟨?_, by decide, by decide⟩
  intro pat repl w content out hrepl hlines heq
  unfold replace_in_file_line_by_line at heq
  exact lineLoop_no_cr pat repl w hrepl _ _ _ _
    (fun l hl => hlines l (List.take_subset _ _ hl))
    (fun l hl => hlines l (List.drop_subset _ _ hl)) heq

/-- Witness for C10 at a concrete input: the windowed output `a\nb\n` on the
CRLF file contains no carriage return. -/
theorem c10_witness : '\r' ∉ c10_out :=
  c10_output_uses_lf_only.1 ( "x".data) ( "y".data) 1 c10_file c10_out
    (by decide) (by decide) (by decide)

/-- C5: in every window iteration with `W > 1`, if the pattern still matches
the candidate output blob after substitution the windowed replacer returns
the structural-failure error; on any windowed-replacer error the per-file
pipeline retries with the whole-file replacer; and with `W = 1` the re-match
check is never performed — the windowed replacer can never fail. -/
theorem c5_rematch_structural_failure :
    (∀ (re : Regex) (w fuel : Nat) (b : Chars) (bs remaining : List Chars),
        1 < w → re.is_match (re.replace_all (joinNl (b :: bs))) = true →
        lineLoop re w fuel (b :: bs) remaining = Except.error ()) ∧
    (∀ (re : Regex) (w : Nat) (content : Chars),
        replace_in_file_line_by_line re w content = Except.error () →
        replace_in_file re w content = replace_in_file_whole_file re content) ∧
    (∀ (re : Regex) (content : Chars),
        replace_in_file_line_by_line re 1 content ≠ Except.error ()) := by
  refine ⟨?_, ?_, ?_⟩
  · intro re w fuel b bs remaining h1 h2
    cases fuel with
    | zero => rfl
    | succ f =>
      simp only [lineLoop]
      rw [if_pos ⟨h1, h2⟩]
  · intro re w content h
    simp [replace_in_file, h]
  · intro re content
    rw [line_by_line_one]
    simp

/-- Witness for C5: with the space-doubling engine at window size 2 the
substituted window still matches and the loop errors; on the file `x y`
the pipeline therefore equals the whole-file replacer; and at window size 1
the windowed replacer does not error. -/
theorem c5_witness :
    lineLoop space_re 2 5 [ " ".data] [] = Except.error () ∧
    replace_in_file space_re 2 c5_file
      = replace_in_file_whole_file space_re c5_file ∧
    replace_in_file_line_by_line space_re 1 c5_file ≠ Except.error () := by
  refine ⟨c5_rematch_structural_failure.1 space_re 2 5 ( " ".data) [] []
      (by decide) (by decide),
    c5_rematch_structural_failure.2.1 space_re 2 c5_file (by decide),
    c5_rematch_structural_failure.2.2 space_re c5_file⟩

/-- C7: with `W = 1` no line is ever carried from one window iteration into
the next, so already-substituted output is never re-matched: the windowed
replacer's output is exactly each input line substituted once and terminated
by `'\n'`; in particular the space-doubling engine on a single-space file
yields exactly two spaces, never four. -/
theorem c7_no_double_substitution :
    (∀ (re : Regex) (content : Chars),
        replace_in_file_line_by_line re 1 content =
          Except.ok
            (((linesOf content).map
                (fun l => re.replace_all l ++ ['\n'])).flatten)) ∧
    replace_in_file space_re 1 c7_file = c7_out ∧
    c7_out.count ' ' = 2 := by
  exact ⟨fun re content => line_by_line_one re content, by decide, by decide⟩

theorem commitOk_split {c : CommitOutcome} (h : commitOk c = true) :
    c.metadataOk = true ∧ c.setPermsOk = true ∧ c.copyOk = true ∧
      c.removeOk = true := by
  simpa [commitOk, Bool.and_eq_true, and_assoc] using h

theorem commitAll_of_all_ok :
    ∀ (l : List FileJob), (∀ j ∈ l, commitOk j.commit = true) →
      commitAll l = (l.map FileJob.path, 0) := by
  intro l
  induction l with
  | nil => intro _; rfl
  | cons j rest ih =>
    intro h
    obtain ⟨h1, h2, h3, h4⟩ := commitOk_split (h j (List.mem_cons_self _ _))
    simp [commitAll, h1, h2, h3, h4,
      ih (fun j' hj' => h j' (List.mem_cons_of_mem _ hj'))]

theorem commitAll_fst_subset :
    ∀ (l : List FileJob) (p : Chars),
      p ∈ (commitAll l).1 → p ∈ l.map FileJob.path := by
  intro l
  induction l with
  | nil => intro p hp; simp [commitAll] at hp
  | cons j rest ih =>
    intro p hp
    cases hm : j.commit.metadataOk with
    | false => simp [commitAll, hm] at hp
    | true =>
      cases hs : j.commit.setPermsOk with
      | false => simp [commitAll, hm, hs] at hp
      | true =>
        cases hc : j.commit.copyOk with
        | false => simp [commitAll, hm, hs, hc] at hp
        | true =>
          cases hr : j.commit.removeOk with
          | false =>
            simp [commitAll, hm, hs, hc, hr] at hp
            subst hp
            exact List.mem_map_of_mem _ (List.mem_cons_self _ _)
          | true =>
            simp [commitAll, hm, hs, hc, hr] at hp
            rcases hp with rfl | hp'
            · exact List.mem_map_of_mem _ (List.mem_cons_self _ _)
            · simp only [List.map_cons]
              exact List.mem_cons_of_mem _ (ih p hp')

theorem commitAll_snd_of_bad :
    ∀ (l : List FileJob), (∃ j ∈ l, commitOk j.commit = false) →
      (commitAll l).2 = 1 := by
  intro l
  induction l with
  | nil => rintro ⟨j, hj, _⟩; simp at hj
  | cons j rest ih =>
    rintro ⟨j', hj', hbad⟩
    cases hm : j.commit.metadataOk with
    | false => simp [commitAll, hm]
    | true =>
      cases hs : j.commit.setPermsOk with
      | false => simp [commitAll, hm, hs]
      | true =>
        cases hc : j.commit.copyOk with
        | false => simp [commitAll, hm, hs, hc]
        | true =>
          cases hr : j.commit.removeOk with
          | false => simp [commitAll, hm, hs, hc, hr]
          | true =>
            simp only [commitAll, hm, hs, hc, hr]
            simp only [Bool.true_eq_false, if_false]
            apply ih
            rcases List.mem_cons.mp hj' with rfl | hmem
            · exfalso
              simp [commitOk, hm, hs, hc, hr] at hbad
            · exact ⟨j', hmem, hbad⟩

/-- C8: per-file replacement failures are reported to the error stream and
excluded from the commit phase; only successfully replaced files can be
committed; when every successful file's commit steps all succeed the run
exits with status 0 — replacement failures alone never make it non-zero —
and commits exactly the successful files; and any commit-step failure makes
the run exit with status 1. -/
theorem c8_failure_policy (jobs : List FileJob) :
    (∀ j ∈ jobs, j.replaced = none → j.path ∈ (runMain jobs).reported) ∧
    (∀ p ∈ (runMain jobs).committed,
        p ∈ (jobs.filter (fun j => j.replaced.isSome)).map FileJob.path) ∧
    ((∀ j ∈ jobs, j.replaced.isSome = true → commitOk j.commit = true) →
        (runMain jobs).exitCode = 0 ∧
        (runMain jobs).committed =
          (jobs.filter (fun j => j.replaced.isSome)).map FileJob.path) ∧
    ((∃ j ∈ jobs, j.replaced.isSome = true ∧ commitOk j.commit = false) →
        (runMain jobs).exitCode = 1) := by
  refine ⟨?_, ?_, ?_, ?_⟩
  · intro j hj hnone
    exact List.mem_map_of_mem _ (List.mem_filter.mpr ⟨hj, by simp [hnone]⟩)
  · intro p hp
    exact commitAll_fst_subset _ p hp
  · intro h
    have hall : ∀ j ∈ jobs.filter (fun j => j.replaced.isSome),
        commitOk j.commit = true := by
      intro j hj
      have hm := List.mem_filter.mp hj
      exact h j hm.1 hm.2
    simp only [runMain]
    rw [commitAll_of_all_ok _ hall]
    exact ⟨rfl, rfl⟩
  · rintro ⟨j, hj, hsome, hbad⟩
    simp only [runMain]
    exact commitAll_snd_of_bad _ ⟨j, List.mem_filter.mpr ⟨hj, hsome⟩, hbad⟩

/-- Witness for C8 at concrete runs: in `c8_jobs` the failed file `f2` is
reported, the run exits 0 and commits exactly the successful files; in
`c8_jobs_bad` the failing overwrite copy makes the run exit 1. -/
theorem c8_witness :
    ( "f2".data) ∈ (runMain c8_jobs).reported ∧
    ((runMain c8_jobs).exitCode = 0 ∧
      (runMain c8_jobs).committed =
        (c8_jobs.filter (fun j => j.replaced.isSome)).map FileJob.path) ∧
    (runMain c8_jobs_bad).exitCode = 1 := by
  refine ⟨?_, ?_, ?_⟩
  · exact (c8_failure_policy c8_jobs).1
      { path := "f2".data, replaced := none, commit := commitAllOk }
      (by decide) (by decide)
  · exact (c8_failure_policy c8_jobs).2.2.1 (by decide)
  · exact (c8_failure_policy c8_jobs_bad).2.2.2
      ⟨{ path := "f3".data, replaced := some ( "t3".data),
          commit := commitCopyFails },
        by decide, by decide, by decide⟩

theorem mem_tailEvents (temp : Chars) (r : Except Unit Chars) (e : FsEvent)
    (he : e ∈ tailEvents temp r) :
    e = FsEvent.flushFile temp ∨ e = FsEvent.persistTemp temp := by
  cases r with
  | ok v => simpa [tailEvents] using he
  | error v => simp [tailEvents] at he

theorem lineLoopTrace_all_writes (re : Regex) (w : Nat) (temp : Chars) :
    ∀ (fuel : Nat) (buffer remaining : List Chars),
      ∀ e ∈ lineLoopTrace re w temp fuel buffer remaining,
        e = FsEvent.writeChunk temp := by
  intro fuel
  induction fuel with
  | zero =>
    intro buffer remaining e he
    cases buffer with
    | nil => simp [lineLoopTrace] at he
    | cons b bs => simp [lineLoopTrace] at he
  | succ f ih =>
    intro buffer remaining e he
    cases buffer with
    | nil => simp [lineLoopTrace] at he
    | cons b bs =>
      simp only [lineLoopTrace] at he
      split at he
      · simp at he
      · split at he
        · rcases List.mem_append.mp he with h1 | h2
          · exact List.eq_of_mem_replicate h1
          · exact List.eq_of_mem_replicate h2
        · rcases List.mem_append.mp he with h1 | h2
          · exact List.eq_of_mem_replicate h1
          · exact ih _ _ e h2

/-- C9: the original file is never written during the replacement phase —
both strategies only open it for reading and direct every write-side event
(temp-file creation, open-for-append, writes, flush, persist) at the fresh
temporary path — and in the commit phase the only write-side event touching
the original is the single wholesale copy of the completed artifact over
it. -/
theorem c9_no_write_to_original :
    (∀ (target temp : Chars) (re : Regex) (w : Nat) (content : Chars),
        temp ≠ target →
        ∀ e ∈ replace_in_file_line_by_line_events target temp re w content,
          touchesForWrite e target = false) ∧
    (∀ (target temp : Chars), temp ≠ target →
        ∀ e ∈ replace_in_file_whole_file_events target temp,
          touchesForWrite e target = false) ∧
    (∀ (file temp : Chars), temp ≠ file →
        (commitEvents file temp).filter (fun e => touchesForWrite e file)
          = [FsEvent.copyOver temp file]) := by
  refine ⟨?_, ?_, ?_⟩
  · intro target temp re w content hne e he
    have htemp : (temp == target) = false := beq_eq_false_iff_ne.mpr hne
    simp only [replace_in_file_line_by_line_events] at he
    rcases List.mem_append.mp he with h12 | htail
    · rcases List.mem_append.mp h12 with h1 | hloop
      · simp only [List.mem_cons, List.not_mem_nil, or_false] at h1
        rcases h1 with rfl | rfl | rfl
        · simp [touchesForWrite, htemp]
        · simp [touchesForWrite, htemp]
        · simp [touchesForWrite]
      · have hw := lineLoopTrace_all_writes re w temp _ _ _ e hloop
        subst hw
        simp [touchesForWrite, htemp]
    · rcases mem_tailEvents temp _ e htail with rfl | rfl <;>
        simp [touchesForWrite, htemp]
  · intro target temp hne e he
    have htemp : (temp == target) = false := beq_eq_false_iff_ne.mpr hne
    simp only [replace_in_file_whole_file_events, List.mem_cons,
      List.not_mem_nil, or_false] at he
    rcases he with rfl | rfl | rfl | rfl | rfl | rfl <;>
      simp [touchesForWrite, htemp]
  · intro file temp hne
    have htemp : (temp == file) = false := beq_eq_false_iff_ne.mpr hne
    simp [commitEvents, List.filter, touchesForWrite, htemp]

/-- Witness for C9 at concrete paths: with the fresh artifact path distinct
from the original, no replacement-phase event write-touches the original and
the commit phase's only original-touching write event is the copy. -/
theorem c9_witness :
    (∀ e ∈ replace_in_file_line_by_line_events c9_target c9_temp c3_re 1
        c3_file, touchesForWrite e c9_target = false) ∧
    (∀ e ∈ replace_in_file_whole_file_events c9_target c9_temp,
        touchesForWrite e c9_target = false) ∧
    ((commitEvents c9_target c9_temp).filter
        (fun e => touchesForWrite e c9_target)
      = [FsEvent.copyOver c9_temp c9_target]) :=
  ⟨c9_no_write_to_original.1 c9_target c9_temp c3_re 1 c3_file (by decide),
    c9_no_write_to_original.2.1 c9_target c9_temp (by decide),
    c9_no_write_to_original.2.2 c9_target c9_temp (by decide)⟩

